import Mathlib

/-!
# Pendant Watch — shallow embedding and verification

Shallow embedding of the core logic of `src/src/main.rs` (a serial-pendant
to keyboard-event bridge) and proofs about the frozen claims.

Modelling conventions:
* Synthetic input injection (`SendInput` in `send_key_down`, `send_key_up`,
  `type_text`) is modelled as emission of `Ev` values; each function returns
  the list of events it emits, in emission order.
* `Instant::now()` is modelled by passing the current time `now : Nat`
  explicitly; `Instant` values are `Nat` timestamps.
* A Rust panic (the `unwrap` on `captures[2].parse::<f32>()`) is modelled by
  returning `none` from `serial_to_arrow`.
* Outbound serial writes (`writer.write_all`) are modelled as a list of
  written strings.
* Terminal rendering (`draw_status_bar`) has no decision logic and mutates
  no session state; it is omitted.
-/

namespace PendantWatch

/-- A synthetic input event emitted through the injection sink.
`keyDown`/`keyUp` carry a Windows virtual-key code (`wVk`);
`charDown`/`charUp` carry the 16-bit scan value (`wScan`) of a character
injected with `KEYEVENTF_UNICODE` (see `type_text` in the source, which
stores `ch as u16`). -/
inductive Ev where
  | keyDown (code : Nat)
  | keyUp (code : Nat)
  | charDown (scan : Nat)
  | charUp (scan : Nat)
deriving DecidableEq, Repr

/-- `enum Mode` from the source: operating modes of the pendant controller. -/
inductive Mode where
  | Arrow
  | Gcode
deriving DecidableEq, Repr

/-- `struct AppState` from the source. `last_command_time : Option Instant`
is modelled with `Nat` timestamps. -/
structure AppState where
  mode : Mode
  connected : Bool
  last_command : Option String
  last_command_time : Option Nat
  gcode_input : String
deriving DecidableEq, Repr

/-- `AppState::new()`: default state (`mode = Gcode`, nothing recorded). -/
def AppState.new : AppState :=
  { mode := Mode.Gcode
    connected := false
    last_command := none
    last_command_time := none
    gcode_input := "" }

/-- `AppState::update_last_command`: sets the last command and stamps it with
the current time (`Instant::now()` is the explicit `now` argument). -/
def AppState.update_last_command (s : AppState) (now : Nat) (command : String) : AppState :=
  { s with last_command := some command, last_command_time := some now }

/-- `AppState::time_since_last_command`: elapsed time since the last command,
if any (`t.elapsed()` becomes `now - t`). -/
def AppState.time_since_last_command (s : AppState) (now : Nat) : Option Nat :=
  s.last_command_time.map (fun t => now - t)

/-- `send_key_down(key_code)`: emits a key-press event (the Windows
`SendInput` call is abstracted to the emitted transition). -/
def send_key_down (key_code : Nat) : Ev := Ev.keyDown key_code

/-- `send_key_up(key_code)`: emits a key-release event. -/
def send_key_up (key_code : Nat) : Ev := Ev.keyUp key_code

/-- The `ch as u16` truncation applied to the `wScan` field in `type_text`. -/
def charScan (c : Char) : Nat := c.toNat % 65536

/-- `type_text(text)`: the loop body of the source function, one
`charDown`/`charUp` pair per character, in order. Written as the source's
`for ch in text.chars()` loop (two `SendInput` calls per iteration). -/
def type_text_chars : List Char → List Ev
  | [] => []
  | ch :: rest => Ev.charDown (charScan ch) :: Ev.charUp (charScan ch) :: type_text_chars rest

/-- `type_text(text)` on a Rust `&str`. -/
def type_text (text : String) : List Ev := type_text_chars text.toList

/-- `serial_to_gcode(line, state)`: types the received line, presses Enter
(`VK_RETURN = 0x0D`), and records a `"Typed: ..."` last command.
Returns the updated state and the emitted events, in emission order. -/
def serial_to_gcode (line : String) (state : AppState) (now : Nat) : AppState × List Ev :=
  (state.update_last_command now ("Typed: " ++ line),
   type_text line ++ [send_key_down 0x0D, send_key_up 0x0D])

/-! ## The movement-command pattern

The source matches lines against the Rust regex `G91G0([XYZ])(-?\d+\.?\d*)`
with `Regex::captures` (unanchored, leftmost match). In the `regex` crate,
`\d` is the Unicode decimal-digit class `\p{Nd}` by default; we embed that
class by its code-point ranges. The pattern has no alternation and every
element after `-?` is greedy with nothing to backtrack into, so matching at
a fixed start position is deterministic; `Regex::captures` returns the match
at the leftmost start position where the pattern succeeds. -/

/-- Code-point ranges of the Unicode general category `Nd` (decimal digit),
the class matched by `\d` in the Rust `regex` crate. -/
def ndRanges : List (Nat × Nat) :=
  [(0x30, 0x39), (0x660, 0x669), (0x6F0, 0x6F9), (0x7C0, 0x7C9),
   (0x966, 0x96F), (0x9E6, 0x9EF), (0xA66, 0xA6F), (0xAE6, 0xAEF),
   (0xB66, 0xB6F), (0xBE6, 0xBEF), (0xC66, 0xC6F), (0xCE6, 0xCEF),
   (0xD66, 0xD6F), (0xDE6, 0xDEF), (0xE50, 0xE59), (0xED0, 0xED9),
   (0xF20, 0xF29), (0x1040, 0x1049), (0x1090, 0x1099), (0x17E0, 0x17E9),
   (0x1810, 0x1819), (0x1946, 0x194F), (0x19D0, 0x19D9), (0x1A80, 0x1A89),
   (0x1A90, 0x1A99), (0x1B50, 0x1B59), (0x1BB0, 0x1BB9), (0x1C40, 0x1C49),
   (0x1C50, 0x1C59), (0xA620, 0xA629), (0xA8D0, 0xA8D9), (0xA900, 0xA909),
   (0xA9D0, 0xA9D9), (0xA9F0, 0xA9F9), (0xAA50, 0xAA59), (0xABF0, 0xABF9),
   (0xFF10, 0xFF19), (0x104A0, 0x104A9), (0x10D30, 0x10D39),
   (0x11066, 0x1106F), (0x110F0, 0x110F9), (0x11136, 0x1113F),
   (0x111D0, 0x111D9), (0x112F0, 0x112F9), (0x11450, 0x11459),
   (0x114D0, 0x114D9), (0x11650, 0x11659), (0x116C0, 0x116C9),
   (0x11730, 0x11739), (0x118E0, 0x118E9), (0x11950, 0x11959),
   (0x11C50, 0x11C59), (0x11D50, 0x11D59), (0x11DA0, 0x11DA9),
   (0x11F50, 0x11F59), (0x16A60, 0x16A69), (0x16AC0, 0x16AC9),
   (0x16B50, 0x16B59), (0x1D7CE, 0x1D7FF), (0x1E140, 0x1E149),
   (0x1E2F0, 0x1E2F9), (0x1E4F0, 0x1E4F9), (0x1E950, 0x1E959),
   (0x1FBF0, 0x1FBF9)]

/-- `\d` of the Rust regex crate: membership in the Unicode `Nd` class. -/
def isNd (c : Char) : Bool :=
  ndRanges.any (fun p => p.1 ≤ c.toNat && c.toNat ≤ p.2)

/-- A match of the capture group `(-?\d+\.?\d*)`: optional minus sign,
non-empty integer digits, optional dot, fractional digits. -/
structure NumLit where
  neg : Bool
  intDs : List Char
  dot : Bool
  fracDs : List Char
deriving DecidableEq, Repr

/-- Greedy match of `\d+\.?\d*` at the head of `l` (after the optional
sign has been consumed); fails when there is no leading digit. -/
def numTail (neg : Bool) (l : List Char) : Option NumLit :=
  let p := l.span isNd
  if p.1 = [] then none
  else
    match p.2 with
    | '.' :: l2 => some ⟨neg, p.1, true, (l2.span isNd).1⟩
    | _ => some ⟨neg, p.1, false, []⟩

/-- Match of `-?\d+\.?\d*` at the head of `l`. A `-` not followed by a digit
makes the whole group fail at this position (the regex backtracks `-?` to
empty, and then `\d+` fails on the `-` itself). -/
def matchNum : List Char → Option NumLit
  | '-' :: rest => numTail true rest
  | l => numTail false l

/-- Attempt to match `G91G0([XYZ])(-?\d+\.?\d*)` starting exactly at the
head of `l`, returning the two capture groups. -/
def matchAt : List Char → Option (Char × NumLit)
  | 'G' :: '9' :: '1' :: 'G' :: '0' :: a :: rest =>
      if a = 'X' || a = 'Y' || a = 'Z' then (matchNum rest).map (fun n => (a, n))
      else none
  | _ => none

/-- `Regex::captures`: the match at the leftmost start position where the
pattern succeeds, scanning start positions left to right. -/
def findMatch : List Char → Option (Char × NumLit)
  | [] => none
  | c :: rest =>
    match matchAt (c :: rest) with
    | some m => some m
    | none => findMatch rest

/-! ## Numeric parse and sign test

The source runs `captures[2].parse::<f32>().unwrap()` and then branches on
`value > 0.0`. Rust's `f32` parser accepts only ASCII digits, so the parse
fails — and the `unwrap` panics — exactly when the matched literal contains
a non-ASCII `\p{Nd}` digit. For an all-ASCII literal `-?d+.?d*` the parse
always succeeds, and it is correctly rounded to nearest (ties to even), so
the resulting `f32` is `> 0.0` iff the exact rational value of the literal
exceeds `2 ^ (-150)` (half the smallest positive subnormal; smaller
positive values, and exactly `2 ^ (-150)`, round to `0.0`). We embed the
parse-and-compare as one function on the literal's digits. -/

/-- Value of a digit string read in base 10 (only used on ASCII digits). -/
def digitsVal (ds : List Char) : Nat :=
  ds.foldl (fun a c => 10 * a + (c.toNat - 48)) 0

/-- `captures[2].parse::<f32>()` followed by `value > 0.0`:
`none` when the parse fails (a non-ASCII digit; the source then panics via
`unwrap`), otherwise `some b` where `b` states that the correctly rounded
`f32` value of the literal is strictly greater than `0.0`, i.e. the sign is
positive and the exact value `(I * 10 ^ k + F) / 10 ^ k` exceeds
`2 ^ (-150)`. -/
def NumLit.parsePosF32? (n : NumLit) : Option Bool :=
  if (n.intDs ++ n.fracDs).all Char.isDigit then
    some (!n.neg &&
      decide (10 ^ n.fracDs.length <
        (digitsVal n.intDs * 10 ^ n.fracDs.length + digitsVal n.fracDs) * 2 ^ 150))
  else none

/-- The exact real-number value of the decimal literal captured in a
`NumLit` (the "magnitude: signed real number" of the spec's
`MovementCommand`), as a rational. -/
def NumLit.val (n : NumLit) : ℚ :=
  (if n.neg then -1 else 1) *
    ((digitsVal n.intDs : ℚ) + (digitsVal n.fracDs : ℚ) / 10 ^ n.fracDs.length)

/-! ## `serial_to_arrow` -/

/-- Virtual key codes from the source. -/
def VK_LEFT : Nat := 0x25

def VK_UP : Nat := 0x26

def VK_RIGHT : Nat := 0x27

def VK_DOWN : Nat := 0x28

def VK_PAGEUP : Nat := 0x21

def VK_PAGEDOWN : Nat := 0x22

def VK_CONTROL : Nat := 0x11

/-- The Unicode `White_Space` characters, the class trimmed by Rust's
`str::trim` (via `char::is_whitespace`). -/
def rustWhitespace (c : Char) : Bool :=
  c = ' ' || c = '\t' || c = '\n' || (c.toNat = 0xB) || (c.toNat = 0xC) || c = '\r' ||
  c.toNat = 0x85 || c.toNat = 0xA0 || c.toNat = 0x1680 ||
  (0x2000 ≤ c.toNat && c.toNat ≤ 0x200A) ||
  c.toNat = 0x2028 || c.toNat = 0x2029 || c.toNat = 0x202F || c.toNat = 0x205F ||
  c.toNat = 0x3000

/-- Rust `str::trim`: strip leading and trailing whitespace. -/
def trimChars (l : List Char) : List Char :=
  ((l.dropWhile rustWhitespace).reverse.dropWhile rustWhitespace).reverse

/-- The `command` string `serial_to_arrow` actually matches and records:
the line trimmed, with a leading `"GCODE: "` label (7 ASCII bytes, hence 7
characters) removed when present. -/
def commandOf (line : String) : List Char :=
  let t := trimChars line.toList
  if t.take 7 = ("GCODE: ".toList) then t.drop 7 else t

/-- The first `match axis` of the source: axis and direction to key name;
the `_ => return false` arm is `none`. -/
def keyOf (axis : Char) (pos : Bool) : Option String :=
  if axis = 'Y' then some (if pos then "up" else "down")
  else if axis = 'X' then some (if pos then "right" else "left")
  else if axis = 'Z' then some (if pos then "pageup" else "pagedown")
  else none

/-- The second `match key` of the source: key name to virtual key code;
the `_ => return false` arm is `none`. -/
def vkOf : String → Option Nat
  | "left" => some VK_LEFT
  | "up" => some VK_UP
  | "right" => some VK_RIGHT
  | "down" => some VK_DOWN
  | "pageup" => some VK_PAGEUP
  | "pagedown" => some VK_PAGEDOWN
  | _ => none

/-- `serial_to_arrow(line, state)`. Returns `none` when the source panics
(failed `f32` parse of a matched literal), otherwise
`some (returnValue, newState, emittedEvents)`. The source computes
`command` (trim plus label strip, here `commandOf`) and calls
`update_last_command` on it before the regex match; every non-panicking
path therefore carries the same updated state, written out per branch
here. On a match the four chord events are emitted in source order. -/
def serial_to_arrow (line : String) (state : AppState) (now : Nat) :
    Option (Bool × AppState × List Ev) :=
  match findMatch (commandOf line) with
  | some (axis, num) =>
    match num.parsePosF32? with
    | none => none
    | some pos =>
      match keyOf axis pos with
      | none =>
        some (false, state.update_last_command now (String.mk (commandOf line)), [])
      | some key =>
        match vkOf key with
        | none =>
          some (false, state.update_last_command now (String.mk (commandOf line)), [])
        | some vk =>
          some (true, state.update_last_command now (String.mk (commandOf line)),
            [send_key_down VK_CONTROL, send_key_down vk, send_key_up vk,
             send_key_up VK_CONTROL])
  | none => some (false, state.update_last_command now (String.mk (commandOf line)), [])

/-! ## Local keyboard handling -/

/-- The `crossterm` key codes the source dispatches on; every other code
falls into the wildcard arm and is modelled by `other`. -/
inductive KeyCode where
  | char (c : Char)
  | enter
  | backspace
  | other
deriving DecidableEq, Repr

/-- Result of `handle_key_press`: either the process exits
(`std::process::exit(0)` on `'q'`) or the loop continues with a new state
and the list of strings written to the outbound serial channel. -/
inductive KeyOutcome where
  | quit
  | cont (s : AppState) (writes : List String)
deriving DecidableEq, Repr

/-- Rust `String::pop`: remove the last character (no-op when empty). -/
def strPop (s : String) : String := String.mk s.toList.dropLast

/-- `handle_key_press(key, writer, state)`. The source's `match key.code`
arms in order: `'1'`, `'2'`, `'q'`, then `Enter`/`Backspace`/`Char(c)`
guarded by `matches!(state.mode, Mode::Gcode)` (an unsatisfied guard falls
through to the wildcard no-op arm). On Enter with a non-empty buffer the
source writes `format!("{}\n", gcode_input)`, records
`format!("Sent: {}", gcode_input)` via `update_last_command`, and clears
the buffer. -/
def handle_key_press (key : KeyCode) (state : AppState) (now : Nat) : KeyOutcome :=
  match key with
  | KeyCode.char c =>
    if c = '1' then KeyOutcome.cont { state with mode := Mode.Arrow } []
    else if c = '2' then KeyOutcome.cont { state with mode := Mode.Gcode } []
    else if c = 'q' then KeyOutcome.quit
    else if state.mode = Mode.Gcode then
      KeyOutcome.cont { state with gcode_input := state.gcode_input.push c } []
    else KeyOutcome.cont state []
  | KeyCode.enter =>
    if state.mode = Mode.Gcode then
      if state.gcode_input = "" then KeyOutcome.cont state []
      else
        KeyOutcome.cont
          { (state.update_last_command now ("Sent: " ++ state.gcode_input)) with
              gcode_input := "" }
          [state.gcode_input ++ "\n"]
    else KeyOutcome.cont state []
  | KeyCode.backspace =>
    if state.mode = Mode.Gcode then
      KeyOutcome.cont { state with gcode_input := strPop state.gcode_input } []
    else KeyOutcome.cont state []
  | KeyCode.other => KeyOutcome.cont state []

/-! ## The event loop -/

/-- Outcome of one iteration of `run_event_loop`'s `loop` body:
`fatal` models a panic aborting the process (the `unwrap` inside
`serial_to_arrow`), `quit` the `process::exit(0)` on `'q'`, and `cont`
carries the new state, the injection events emitted during the tick and
the outbound serial writes. -/
inductive TickResult where
  | fatal
  | quit
  | cont (s : AppState) (events : List Ev) (writes : List String)
deriving DecidableEq, Repr

/-- The inbound-serial phase of one tick, as a standalone function: if a
complete line arrived it is trimmed (`let line = line.trim()` in
`run_event_loop`) and routed by mode. Returns `none` on panic, otherwise
the state and the events emitted in this phase. -/
def serialStep (line : String) (state : AppState) (now : Nat) :
    Option (AppState × List Ev) :=
  match state.mode with
  | Mode.Arrow =>
    (serial_to_arrow (String.mk (trimChars line.toList)) state now).map
      (fun r => (r.2.1, r.2.2))
  | Mode.Gcode =>
    some (serial_to_gcode (String.mk (trimChars line.toList)) state now)

/-- One iteration of the `loop` in `run_event_loop`, written exactly in the
source's control-flow order: first the serial read (`reader.read_line`,
whose produced line is trimmed and dispatched by mode), then — only if the
serial phase did not abort the process — the keyboard poll
(`event::poll` / `event::read` / `handle_key_press`). `line = none` models
a read timeout with no data, `key = none` a poll with no pending event. -/
def tick (line : Option String) (key : Option KeyCode) (state : AppState) (now : Nat) :
    TickResult :=
  match line with
  | some l =>
    match state.mode with
    | Mode.Arrow =>
      match serial_to_arrow (String.mk (trimChars l.toList)) state now with
      | none => TickResult.fatal
      | some (_, s1, evs) =>
        match key with
        | none => TickResult.cont s1 evs []
        | some k =>
          match handle_key_press k s1 now with
          | KeyOutcome.quit => TickResult.quit
          | KeyOutcome.cont s2 ws => TickResult.cont s2 evs ws
    | Mode.Gcode =>
      match key with
      | none =>
        TickResult.cont (serial_to_gcode (String.mk (trimChars l.toList)) state now).1
          (serial_to_gcode (String.mk (trimChars l.toList)) state now).2 []
      | some k =>
        match handle_key_press k
            (serial_to_gcode (String.mk (trimChars l.toList)) state now).1 now with
        | KeyOutcome.quit => TickResult.quit
        | KeyOutcome.cont s2 ws =>
          TickResult.cont s2
            (serial_to_gcode (String.mk (trimChars l.toList)) state now).2 ws
  | none =>
    match key with
    | none => TickResult.cont state [] []
    | some k =>
      match handle_key_press k state now with
      | KeyOutcome.quit => TickResult.quit
      | KeyOutcome.cont s2 ws => TickResult.cont s2 [] ws

/-! ## Reachable session states -/

/-- One state-mutating step of the program: an inbound line handled in
Arrow mode (that did not panic), an inbound line handled in Gcode mode, a
local key press that did not exit the process, or the one-off
`state.connected = true` performed in `main` after opening the port. -/
inductive Step : AppState → AppState → Prop where
  | arrow {s : AppState} {line : String} {now : Nat} {b : Bool} {s2 : AppState}
      {evs : List Ev} :
      serial_to_arrow line s now = some (b, s2, evs) → Step s s2
  | gcode {s : AppState} (line : String) (now : Nat) :
      Step s (serial_to_gcode line s now).1
  | key {s : AppState} {k : KeyCode} {now : Nat} {s2 : AppState} {ws : List String} :
      handle_key_press k s now = KeyOutcome.cont s2 ws → Step s s2
  | connect {s : AppState} : Step s { s with connected := true }

/-- Session states reachable from `AppState::new()` by program steps. -/
inductive Reachable : AppState → Prop where
  | init : Reachable AppState.new
  | step {s s2 : AppState} : Reachable s → Step s s2 → Reachable s2

/-! ## Helper lemmas -/

/-- The §4.2 table of the spec, as a function from axis and sign to the
virtual key code of the directional key (only applied to axes in
`{X, Y, Z}`). -/
def tableVk (axis : Char) (pos : Bool) : Nat :=
  if axis = 'Y' then (if pos then VK_UP else VK_DOWN)
  else if axis = 'X' then (if pos then VK_RIGHT else VK_LEFT)
  else (if pos then VK_PAGEUP else VK_PAGEDOWN)

lemma matchAt_axis {l : List Char} {a : Char} {n : NumLit}
    (h : matchAt l = some (a, n)) : a = 'X' ∨ a = 'Y' ∨ a = 'Z' := by
  unfold matchAt at h
  split at h
  · rename_i a1 rest
    split at h
    · rename_i hcls
      obtain ⟨n1, _, hpair⟩ := Option.map_eq_some'.mp h
      obtain ⟨ha, -⟩ := Prod.mk.injEq .. ▸ hpair
      subst ha
      simpa [Bool.or_eq_true, decide_eq_true_eq, or_assoc] using hcls
    · exact absurd h (by simp)
  · exact absurd h (by simp)

lemma findMatch_axis {l : List Char} {a : Char} {n : NumLit}
    (h : findMatch l = some (a, n)) : a = 'X' ∨ a = 'Y' ∨ a = 'Z' := by
  induction l with
  | nil => simp [findMatch] at h
  | cons c rest ih =>
    rw [findMatch] at h
    cases hma : matchAt (c :: rest) with
    | some m =>
      rw [hma] at h
      cases h
      exact matchAt_axis hma
    | none =>
      rw [hma] at h
      exact ih h

lemma keyOf_vkOf_eq {a : Char} (pos : Bool) (h : a = 'X' ∨ a = 'Y' ∨ a = 'Z') :
    ∃ key, keyOf a pos = some key ∧ vkOf key = some (tableVk a pos) := by
  rcases h with h | h | h <;> subst h <;> cases pos <;> exact ⟨_, rfl, rfl⟩

/-- Whatever happens after the regex step, a non-panicking run of
`serial_to_arrow` leaves the state updated with the trimmed,
label-stripped command text. -/
lemma serial_to_arrow_state_eq {line : String} {s : AppState} {now : Nat}
    {b : Bool} {s2 : AppState} {evs : List Ev}
    (h : serial_to_arrow line s now = some (b, s2, evs)) :
    s2 = s.update_last_command now (String.mk (commandOf line)) := by
  unfold serial_to_arrow at h
  split at h
  · split at h
    · exact absurd h (by simp)
    · split at h
      · cases h; rfl
      · split at h
        · cases h; rfl
        · cases h; rfl
  · cases h; rfl

/-- Full characterization of a matched, successfully parsed line: return
value `true`, state updated with the command text, and exactly the four
chord events with the table-selected directional key. -/
lemma serial_to_arrow_match_eq {line : String} {s : AppState} {now : Nat}
    {axis : Char} {n : NumLit} {pos : Bool}
    (hm : findMatch (commandOf line) = some (axis, n))
    (hp : n.parsePosF32? = some pos) :
    serial_to_arrow line s now =
      some (true, s.update_last_command now (String.mk (commandOf line)),
        [Ev.keyDown VK_CONTROL, Ev.keyDown (tableVk axis pos),
         Ev.keyUp (tableVk axis pos), Ev.keyUp VK_CONTROL]) := by
  obtain ⟨key, hk, hv⟩ := keyOf_vkOf_eq pos (findMatch_axis hm)
  simp only [serial_to_arrow, hm, hp, hk, hv, send_key_down, send_key_up]

/-- A non-matching line yields return value `false`, the state update, and
no events. -/
lemma serial_to_arrow_nonmatch_eq {line : String} {s : AppState} {now : Nat}
    (hm : findMatch (commandOf line) = none) :
    serial_to_arrow line s now =
      some (false, s.update_last_command now (String.mk (commandOf line)), []) := by
  simp only [serial_to_arrow, hm]

/-- If the exact value of a parsed literal is zero, the `value > 0.0`
branch test is false. -/
lemma parsePos_of_val_zero {n : NumLit} {pos : Bool}
    (hp : n.parsePosF32? = some pos) (hv : n.val = 0) : pos = false := by
  have hx : (digitsVal n.intDs : ℚ) +
      (digitsVal n.fracDs : ℚ) / 10 ^ n.fracDs.length = 0 := by
    rw [NumLit.val] at hv
    have hne : ((if n.neg then (-1:ℚ) else 1)) ≠ 0 := by
      cases hn : n.neg <;> simp [hn]
    exact (mul_eq_zero.mp hv).resolve_left hne
  have hI : (0:ℚ) ≤ (digitsVal n.intDs : ℚ) := Nat.cast_nonneg _
  have hF : (0:ℚ) ≤ (digitsVal n.fracDs : ℚ) / 10 ^ n.fracDs.length := by positivity
  have hpair := (add_eq_zero_iff_of_nonneg hI hF).mp hx
  have hI0 : digitsVal n.intDs = 0 := by exact_mod_cast hpair.1
  have hF0 : digitsVal n.fracDs = 0 := by
    have h10 : ((10:ℚ) ^ n.fracDs.length) ≠ 0 := by positivity
    have := hpair.2
    rw [div_eq_zero_iff] at this
    rcases this with h | h
    · exact_mod_cast h
    · exact absurd h h10
  rw [NumLit.parsePosF32?] at hp
  split at hp
  · cases hp
    simp [hI0, hF0]
  · exact absurd hp (by simp)

/-- The loop body of `type_text` emits exactly one down/up pair per
character, in input order. -/
lemma type_text_chars_eq (l : List Char) :
    type_text_chars l =
      l.flatMap (fun ch => [Ev.charDown (charScan ch), Ev.charUp (charScan ch)]) := by
  induction l with
  | nil => rfl
  | cons ch rest ih => simp [type_text_chars, ih]

lemma type_text_chars_length (l : List Char) :
    (type_text_chars l).length = 2 * l.length := by
  induction l with
  | nil => rfl
  | cons ch rest ih =>
    simp only [type_text_chars, List.length_cons, ih]
    omega

/-! ## Claims -/

/-- C1 (amended): for every inbound line that matches the movement grammar
and whose captured numeric literal parses as an `f32` (the source panics
otherwise), `serial_to_arrow` emits exactly four events in the strict
order Ctrl-down, directional-key-down, directional-key-up, Ctrl-up; the
modifier's down/up events always enclose exactly the matching directional
key. -/
theorem chord_emission_c1 (line : String) (s : AppState) (now : Nat)
    (axis : Char) (n : NumLit) (pos : Bool)
    (hm : findMatch (commandOf line) = some (axis, n))
    (hp : n.parsePosF32? = some pos) :
    serial_to_arrow line s now =
      some (true, s.update_last_command now (String.mk (commandOf line)),
        [Ev.keyDown VK_CONTROL, Ev.keyDown (tableVk axis pos),
         Ev.keyUp (tableVk axis pos), Ev.keyUp VK_CONTROL]) :=
  serial_to_arrow_match_eq hm hp

/-- C1 witness: the line `G91G0X10.5` of the spec's Scenario 1 matches, its
literal parses, and exactly the four nested chord events come out. -/
theorem chord_emission_c1_witness :
    serial_to_arrow "GCODE: G91G0X10.5" AppState.new 0 =
      some (true, AppState.new.update_last_command 0 "G91G0X10.5",
        [Ev.keyDown VK_CONTROL, Ev.keyDown (tableVk 'X' true),
         Ev.keyUp (tableVk 'X' true), Ev.keyUp VK_CONTROL]) := by
  have h := chord_emission_c1 "GCODE: G91G0X10.5" AppState.new 0 'X'
    ⟨false, ['1', '0'], true, ['5']⟩ true (by decide) (by decide)
  simpa using h

/-- C1 counterexample: `G91G0Z٣` (Arabic-Indic digit three, U+0663, which
`\d` matches as a Unicode decimal digit) matches the movement grammar,
yet `serial_to_arrow` panics on the failed `f32` parse and emits zero
events, not four. -/
theorem chord_emission_c1_cx :
    (findMatch (commandOf "G91G0Z٣")).isSome = true ∧
    serial_to_arrow "G91G0Z٣" AppState.new 0 = none := by
  exact ⟨by decide, by decide⟩

/-- C2: on the matched line `G91G0X٣`, the captured literal `٣` fails the
`f32` parse, and the source's `captures[2].parse().unwrap()` panics — the
run aborts (`none`) instead of returning "no command" (`false`). -/
theorem parse_panic_c2 :
    (findMatch (commandOf "G91G0X٣")).map Prod.fst = some 'X' ∧
    (findMatch (commandOf "G91G0X٣")).map (fun m => m.2.parsePosF32?) = some none ∧
    serial_to_arrow "G91G0X٣" AppState.new 0 = none := by
  refine ⟨by decide, by decide, by decide⟩

/-- C3 (amended): for every matched command whose literal parses, the
directional key is selected by the table with "positive" meaning the
parsed single-precision value is strictly greater than `0.0` (exact
values in `(0, 2 ^ (-150)]` underflow to zero and take the non-positive
branch); a literal whose exact value is zero always falls on the
non-positive (down/left/page-down) branch. -/
theorem key_table_c3 (line : String) (s : AppState) (now : Nat)
    (axis : Char) (n : NumLit) (pos : Bool)
    (hm : findMatch (commandOf line) = some (axis, n))
    (hp : n.parsePosF32? = some pos) :
    serial_to_arrow line s now =
      some (true, s.update_last_command now (String.mk (commandOf line)),
        [Ev.keyDown VK_CONTROL, Ev.keyDown (tableVk axis pos),
         Ev.keyUp (tableVk axis pos), Ev.keyUp VK_CONTROL]) ∧
    (n.val = 0 → pos = false) :=
  ⟨serial_to_arrow_match_eq hm hp, fun hv => parsePos_of_val_zero hp hv⟩

/-- C3 witness: the line `G91G0Y-3` of the spec's Scenario 2: matched axis
`Y`, non-positive magnitude, `tableVk 'Y' false = VK_DOWN`. -/
theorem key_table_c3_witness :
    serial_to_arrow "G91G0Y-3" AppState.new 0 =
      some (true, AppState.new.update_last_command 0 "G91G0Y-3",
        [Ev.keyDown VK_CONTROL, Ev.keyDown (tableVk 'Y' false),
         Ev.keyUp (tableVk 'Y' false), Ev.keyUp VK_CONTROL]) :=
  (key_table_c3 "G91G0Y-3" AppState.new 0 'Y' ⟨true, ['3'], false, []⟩ false
    (by decide) (by decide)).1

/-- The movement line whose magnitude literal has the exact value
`10 ^ (-46)`, which is strictly positive but below `2 ^ (-150)`. -/
def tinyLine : String := "G91G0Y0.0000000000000000000000000000000000000000000001"

/-- The literal captured from `tinyLine`: `0.` followed by 45 zeros and a
final `1` (46 fractional digits). -/
def tinyLit : NumLit :=
  ⟨false, ['0'], true,
   ['0', '0', '0', '0', '0', '0', '0', '0', '0', '0', '0', '0', '0', '0', '0',
    '0', '0', '0', '0', '0', '0', '0', '0', '0', '0', '0', '0', '0', '0', '0',
    '0', '0', '0', '0', '0', '0', '0', '0', '0', '0', '0', '0', '0', '0', '0',
    '1']⟩

/-- C3 counterexample: `tinyLine` matches with axis `Y` and a magnitude
whose exact value is strictly positive, yet the emitted directional key is
`VK_DOWN` (0x28), not `VK_UP`: the parsed `f32` underflows to `0.0` and
the source's strict `value > 0.0` test sends it to the "else" branch. -/
theorem key_table_c3_cx :
    findMatch (commandOf tinyLine) = some ('Y', tinyLit) ∧
    0 < tinyLit.val ∧
    serial_to_arrow tinyLine AppState.new 0 =
      some (true, AppState.new.update_last_command 0 tinyLine,
        [Ev.keyDown VK_CONTROL, Ev.keyDown VK_DOWN, Ev.keyUp VK_DOWN,
         Ev.keyUp VK_CONTROL]) := by
  refine ⟨by decide, ?_, by decide⟩
  have h1 : digitsVal tinyLit.intDs = 0 := by decide
  have h2 : digitsVal tinyLit.fracDs = 1 := by decide
  have h3 : tinyLit.fracDs.length = 46 := by decide
  have h4 : tinyLit.neg = false := by decide
  rw [NumLit.val, h1, h2, h3, h4]
  norm_num

/-- C4: `serial_to_gcode` (via `type_text`) emits exactly one
character-down/character-up pair per character of the text, in the text's
order, followed by exactly one Enter-key (VK 0x0D) down/up pair, and
nothing else. -/
theorem typed_trace_c4 (line : String) (s : AppState) (now : Nat) :
    (serial_to_gcode line s now).2 =
      line.toList.flatMap
        (fun ch => [Ev.charDown (charScan ch), Ev.charUp (charScan ch)]) ++
        [Ev.keyDown 0x0D, Ev.keyUp 0x0D] ∧
    (serial_to_gcode line s now).2.length = 2 * line.toList.length + 2 := by
  constructor
  · show type_text line ++ _ = _
    rw [type_text, type_text_chars_eq]
    rfl
  · show (type_text line ++ _).length = _
    rw [type_text, List.length_append, type_text_chars_length]
    rfl

/-- C5 (amended): in Arrow mode, a line that does not match the movement
grammar yields return value `false`, no key events, and `last_command`
updated to the trimmed line with a leading `"GCODE: "` label removed —
not necessarily the raw text of the line. -/
theorem nonmatch_update_c5 (line : String) (s : AppState) (now : Nat)
    (h : findMatch (commandOf line) = none) :
    serial_to_arrow line s now =
      some (false,
        { s with last_command := some (String.mk (commandOf line)),
                 last_command_time := some now }, []) :=
  serial_to_arrow_nonmatch_eq h

/-- C5 witness: the non-matching line `hello world` (spec §8) updates
`last_command` to itself and emits nothing. -/
theorem nonmatch_update_c5_witness :
    serial_to_arrow "hello world" AppState.new 0 =
      some (false,
        { AppState.new with last_command := some "hello world",
                            last_command_time := some 0 }, []) :=
  nonmatch_update_c5 "hello world" AppState.new 0 (by decide)

/-- C5 counterexample: on the non-matching line `GCODE: hello`,
`last_command` becomes the stripped text `hello`, which differs from the
raw text `GCODE: hello` of the line. -/
theorem nonmatch_update_c5_cx :
    (serial_to_arrow "GCODE: hello" AppState.new 0).map
        (fun r => (r.1, r.2.1.last_command, r.2.2)) =
      some (false, some "hello", ([] : List Ev)) ∧
    ("hello" : String) ≠ "GCODE: hello" := by
  refine ⟨by decide, by decide⟩

/-- C6: Enter in Gcode mode: with an empty pending buffer nothing happens
(no write, no `last_command`/`last_command_time` change, buffer still
empty); with a non-empty buffer the buffer plus `"\n"` is written, a
`"Sent: ..."` record is stamped with the current time, and the buffer is
cleared. -/
theorem enter_gcode_c6 (s : AppState) (now : Nat) (h : s.mode = Mode.Gcode) :
    (s.gcode_input = "" →
      handle_key_press KeyCode.enter s now = KeyOutcome.cont s []) ∧
    (s.gcode_input ≠ "" →
      handle_key_press KeyCode.enter s now =
        KeyOutcome.cont
          { s with last_command := some ("Sent: " ++ s.gcode_input),
                   last_command_time := some now,
                   gcode_input := "" }
          [s.gcode_input ++ "\n"]) := by
  constructor
  · intro he
    simp [handle_key_press, h, he]
  · intro he
    simp [handle_key_press, h, he, AppState.update_last_command]

/-- C6 witness: Enter on the fresh state (Gcode mode, empty buffer) is a
no-op. -/
theorem enter_gcode_c6_witness :
    handle_key_press KeyCode.enter AppState.new 0 = KeyOutcome.cont AppState.new [] :=
  (enter_gcode_c6 AppState.new 0 rfl).1 rfl

/-- C7: pressing `'1'` or `'2'` switches the mode (to Arrow and Gcode
respectively) from either mode and changes nothing else: the resulting
state is the old one with only `mode` replaced, so `gcode_input` in
particular survives a mode switch. -/
theorem mode_switch_c7 (c : Char) (s : AppState) (now : Nat)
    (h : c = '1' ∨ c = '2') :
    handle_key_press (KeyCode.char c) s now =
      KeyOutcome.cont
        { s with mode := if c = '1' then Mode.Arrow else Mode.Gcode } [] := by
  rcases h with h | h <;> subst h <;> simp [handle_key_press]

/-- C7 witness: `'1'` on a state with a pending buffer switches to Arrow
and keeps the buffer. -/
theorem mode_switch_c7_witness :
    handle_key_press (KeyCode.char '1') { AppState.new with gcode_input := "G0" } 0 =
      KeyOutcome.cont
        { AppState.new with mode := Mode.Arrow, gcode_input := "G0" } [] := by
  have h := mode_switch_c7 '1' { AppState.new with gcode_input := "G0" } 0 (Or.inl rfl)
  simpa using h

/-- C8: within one tick, the inbound serial phase runs before the local
keyboard phase: if the serial phase panics the keyboard event is never
processed, and otherwise the keyboard handler runs on the state already
produced by the serial phase, with the serial phase's events in the tick's
trace. -/
theorem serial_first_c8 (l : String) (k : KeyCode) (s : AppState) (now : Nat) :
    (serialStep l s now = none →
      tick (some l) (some k) s now = TickResult.fatal) ∧
    (∀ s1 evs, serialStep l s now = some (s1, evs) →
      tick (some l) (some k) s now =
        match handle_key_press k s1 now with
        | KeyOutcome.quit => TickResult.quit
        | KeyOutcome.cont s2 ws => TickResult.cont s2 evs ws) := by
  constructor
  · intro h
    cases hm : s.mode with
    | Arrow =>
      rw [serialStep, hm] at h
      rw [Option.map_eq_none'] at h
      simp only [String.toList] at h
      simp [tick, hm, h]
    | Gcode =>
      rw [serialStep, hm] at h
      exact absurd h (by simp)
  · intro s1 evs h
    cases hm : s.mode with
    | Arrow =>
      rw [serialStep, hm] at h
      obtain ⟨r, hr, hpr⟩ := Option.map_eq_some'.mp h
      obtain ⟨b, s1', evs'⟩ := r
      obtain ⟨h1, h2⟩ := Prod.mk.injEq .. ▸ hpr
      subst h1
      subst h2
      simp only [tick, hm, String.toList]
      simp only [String.toList] at hr
      rw [hr]
    | Gcode =>
      rw [serialStep, hm] at h
      rw [Option.some_inj] at h
      have h1 : (serial_to_gcode (String.mk (trimChars l.toList)) s now).1 = s1 := by
        rw [h]
      have h2 : (serial_to_gcode (String.mk (trimChars l.toList)) s now).2 = evs := by
        rw [h]
      simp only [tick, hm, String.toList]
      simp only [String.toList] at h1 h2
      rw [h1, h2]

/-- C8 witness: with both a serial line and a key pending on the fresh
state, the typed-line state and events from the serial phase are what the
keyboard phase sees and what the tick reports. -/
theorem serial_first_c8_witness :
    tick (some "x") (some KeyCode.other) AppState.new 5 =
      TickResult.cont
        { AppState.new with last_command := some "Typed: x",
                            last_command_time := some 5 }
        [Ev.charDown 120, Ev.charUp 120, Ev.keyDown 13, Ev.keyUp 13] [] := by
  have h := (serial_first_c8 "x" KeyCode.other AppState.new 5).2
    { AppState.new with last_command := some "Typed: x", last_command_time := some 5 }
    [Ev.charDown 120, Ev.charUp 120, Ev.keyDown 13, Ev.keyUp 13] (by decide)
  simpa [handle_key_press] using h

/-- C9: in Arrow mode, any local key other than `'1'`, `'2'`, `'q'` —
printable characters, Backspace, Enter, or anything else — leaves the
state unchanged and writes nothing to the serial port. -/
theorem arrow_inert_c9 (k : KeyCode) (s : AppState) (now : Nat)
    (hm : s.mode = Mode.Arrow)
    (h1 : k ≠ KeyCode.char '1') (h2 : k ≠ KeyCode.char '2')
    (hq : k ≠ KeyCode.char 'q') :
    handle_key_press k s now = KeyOutcome.cont s [] := by
  cases k with
  | char c =>
    have hc1 : c ≠ '1' := fun hh => h1 (by rw [hh])
    have hc2 : c ≠ '2' := fun hh => h2 (by rw [hh])
    have hcq : c ≠ 'q' := fun hh => hq (by rw [hh])
    simp [handle_key_press, hc1, hc2, hcq, hm]
  | enter => simp [handle_key_press, hm]
  | backspace => simp [handle_key_press, hm]
  | other => simp [handle_key_press]

/-- C9 witness: Enter in Arrow mode is inert. -/
theorem arrow_inert_c9_witness :
    handle_key_press KeyCode.enter { AppState.new with mode := Mode.Arrow } 0 =
      KeyOutcome.cont { AppState.new with mode := Mode.Arrow } [] :=
  arrow_inert_c9 KeyCode.enter { AppState.new with mode := Mode.Arrow } 0 rfl
    (by decide) (by decide) (by decide)

/-- Every continuing key press either leaves `last_command` and
`last_command_time` untouched, or (Enter-send) sets both at once. -/
lemma handle_key_press_lastcmd {k : KeyCode} {s s2 : AppState} {now : Nat}
    {ws : List String}
    (h : handle_key_press k s now = KeyOutcome.cont s2 ws) :
    (s2.last_command = s.last_command ∧
      s2.last_command_time = s.last_command_time) ∨
    (s2.last_command = some ("Sent: " ++ s.gcode_input) ∧
      s2.last_command_time = some now) := by
  cases k with
  | char c =>
    simp only [handle_key_press] at h
    split at h
    · cases h; exact Or.inl ⟨rfl, rfl⟩
    · split at h
      · cases h; exact Or.inl ⟨rfl, rfl⟩
      · split at h
        · exact KeyOutcome.noConfusion h
        · split at h
          · cases h; exact Or.inl ⟨rfl, rfl⟩
          · cases h; exact Or.inl ⟨rfl, rfl⟩
  | enter =>
    simp only [handle_key_press] at h
    split at h
    · split at h
      · cases h; exact Or.inl ⟨rfl, rfl⟩
      · cases h; exact Or.inr ⟨rfl, rfl⟩
    · cases h; exact Or.inl ⟨rfl, rfl⟩
  | backspace =>
    simp only [handle_key_press] at h
    split at h
    · cases h; exact Or.inl ⟨rfl, rfl⟩
    · cases h; exact Or.inl ⟨rfl, rfl⟩
  | other =>
    simp only [handle_key_press] at h
    cases h; exact Or.inl ⟨rfl, rfl⟩

/-- C10: in every reachable session state, `last_command` is `some` exactly
when `last_command_time` is, and `time_since_last_command` answers `some`
exactly when a last command exists: both fields start `none` and every
mutation sets both together through `update_last_command`. -/
theorem lastcmd_sync_c10 (s : AppState) (h : Reachable s) :
    s.last_command.isSome = s.last_command_time.isSome ∧
    ∀ now : Nat,
      (s.time_since_last_command now).isSome = s.last_command.isSome := by
  have hmain : s.last_command.isSome = s.last_command_time.isSome := by
    induction h with
    | init => rfl
    | step hr hstep ih =>
      cases hstep with
      | arrow h2 =>
        rw [serial_to_arrow_state_eq h2]
        rfl
      | gcode line now => rfl
      | key h2 =>
        rcases handle_key_press_lastcmd h2 with ⟨ha, hb⟩ | ⟨ha, hb⟩
        · rw [ha, hb]; exact ih
        · rw [ha, hb]; rfl
      | connect => exact ih
  refine ⟨hmain, fun now => ?_⟩
  cases hlt : s.last_command_time with
  | none =>
    rw [AppState.time_since_last_command, hmain, hlt]
    rfl
  | some t =>
    rw [AppState.time_since_last_command, hmain, hlt]
    rfl

/-- C10 witness: the invariant at the initial state, and
`time_since_last_command` at a concrete clock value. -/
theorem lastcmd_sync_c10_witness :
    AppState.new.last_command.isSome = AppState.new.last_command_time.isSome ∧
    (AppState.new.time_since_last_command 3).isSome =
      AppState.new.last_command.isSome :=
  ⟨(lastcmd_sync_c10 AppState.new Reachable.init).1,
   (lastcmd_sync_c10 AppState.new Reachable.init).2 3⟩

end PendantWatch
